import Mathlib

/-!
Verification of the mdl_collector harvesting pipeline.

This file shallowly embeds the column-rewrite, column-dropping and
per-record fetch logic of `src/orchestrators/fetch_datasets.py` and
`src/sources/unhcr.py`, together with the schema-registry /
schema-enforcement component exercised by
`tests/test_schema_enforcement.py` (the `schemas/column_mappings.py`
module itself is absent from the sources, so its behaviour is modelled
from the specification).
-/

namespace MDL

/-- A scalar cell value of a flattened row: string, integer, boolean,
or the missing-value marker (pandas `NaN` / JSON `null`). -/
inductive Scalar where
  | null
  | str (s : String)
  | num (n : Int)
  | bool (b : Bool)
deriving DecidableEq, Repr

/-- `isNullScalar v` holds exactly when `v` is the missing-value marker. -/
def isNullScalar : Scalar → Bool
  | .null => true
  | _ => false

/-! ## The column rewrite of `process_datasets`

`process_datasets` runs
`df.columns.str.replace("study_desc.|doc_desc.|study_info.|method.", "", regex=True)`
followed by `df.columns.str.replace("data_collection.", "method_")`.
The first call is an unanchored regex substitution deleting every
occurrence of one of the four alternatives, where the trailing `.` is
the regex wildcard matching any single character; the second replaces
every occurrence of the literal string `data_collection.` by
`method_`.  Both are embedded below on `List Char`, scanning left to
right exactly as `re.sub` does (a match is consumed and scanning
resumes after it). -/

/-- `dropLit pat l` returns `some rest` when `l` starts with the literal
character sequence `pat`, with `rest` the remainder, else `none`. -/
def dropLit : List Char → List Char → Option (List Char)
  | [], l => some l
  | _ :: _, [] => none
  | p :: ps, c :: cs => if p = c then dropLit ps cs else none

/-- The newline character, which the regex wildcard does not match. -/
def newlineChar : Char := Char.ofNat 10

/-- Match the regex `pat.` (literal `pat` followed by the wildcard) at
the head of `l`, returning the remainder after the match.  Without the
DOTALL flag — and `re.sub` here runs without flags — the wildcard
matches any single character except a newline. -/
def dropPatDot (pat : List Char) (l : List Char) : Option (List Char) :=
  match dropLit pat l with
  | some (c :: rest) => if c = newlineChar then none else some rest
  | _ => none

/-- Try the four alternatives of the deletion regex, in the order they
appear in `patterns_to_remove`, at the head of `l`. -/
def tryDeletePatterns (l : List Char) : Option (List Char) :=
  match dropPatDot "study_desc".data l with
  | some r => some r
  | none =>
    match dropPatDot "doc_desc".data l with
    | some r => some r
    | none =>
      match dropPatDot "study_info".data l with
      | some r => some r
      | none => dropPatDot "method".data l

/-- Fuel-indexed left-to-right deletion pass of
`re.sub("study_desc.|doc_desc.|study_info.|method.", "", s)`: at each
position, delete a match and resume after it, else emit the character
and advance.  Each step consumes at least one character, so fuel equal
to the input length is always sufficient. -/
def deleteAllFuel : Nat → List Char → List Char
  | 0, l => l
  | _ + 1, [] => []
  | fuel + 1, c :: rest =>
    match tryDeletePatterns (c :: rest) with
    | some rem => deleteAllFuel fuel rem
    | none => c :: deleteAllFuel fuel rest

/-- The deletion pass on a whole character list. -/
def deleteAll (l : List Char) : List Char := deleteAllFuel l.length l

/-- Fuel-indexed left-to-right replacement of every occurrence of the
literal `data_collection.` by `method_` (the replacement text is not
rescanned, exactly as `str.replace`). -/
def replaceDCFuel : Nat → List Char → List Char
  | 0, l => l
  | _ + 1, [] => []
  | fuel + 1, c :: rest =>
    match dropLit "data_collection.".data (c :: rest) with
    | some rem => "method_".data ++ replaceDCFuel fuel rem
    | none => c :: replaceDCFuel fuel rest

/-- The `data_collection.` → `method_` replacement on a whole list. -/
def replaceDC (l : List Char) : List Char := replaceDCFuel l.length l

/-- The complete column rewrite applied by `process_datasets` to one
column name: the regex deletion pass, then the literal replacement. -/
def renameColumn (s : String) : String :=
  String.mk (replaceDC (deleteAll s.data))

/-- The rewrite applied to the whole column index of the DataFrame. -/
def renameColumns (cols : List String) : List String := cols.map renameColumn

/-! ## `process_datasets` on a whole DataFrame -/

/-- One DataFrame column: its name and its cell values. -/
structure Column where
  name : String
  values : List Scalar
deriving DecidableEq, Repr

/-- `process_datasets` (minus the CSV write): rename every column,
drop the columns whose values are all null (the how=all column dropna),
then drop any column labelled `schematype`. -/
def processDatasets (df : List Column) : List Column :=
  let renamed := df.map (fun c => { c with name := renameColumn c.name })
  let nonNull := renamed.filter (fun c => !(c.values.all isNullScalar))
  nonNull.filter (fun c => c.name != "schematype")

/-- The five flattened keys of the end-to-end consolidation scenario. -/
def scenarioCols : List String :=
  ["study_desc.version_statement.version",
   "doc_desc.version_statement.version",
   "study_info.notes",
   "method.notes",
   "data_collection.sampling_procedure"]

/-- The five output keys the specification requires for the scenario. -/
def scenarioExpected : List String :=
  ["study.version_statement.version",
   "doc.version_statement.version",
   "info.notes",
   "method.notes",
   "method.sampling_procedure"]

/-! ## Schema registry and schema enforcement

`tests/test_schema_enforcement.py` imports `enforce_schema`,
`get_schema_for_source` (and `apply_prefix_mapping`) from
`src/schemas/column_mappings.py`, a module that is not among the
sources.  The definitions in this section are therefore modelled from
the specification (sections 3, 4.3 and 4.4), with the key sets the
tests assert. -/

/-- A declared semantic type tag of a schema column. -/
inductive TypeTag where
  | str
  | numeric
  | bool
deriving DecidableEq, Repr

/-- A Schema: an ordered mapping from canonical column name to type
tag.  As a Python `dict` its keys are distinct by construction, which
the `nodup` field records. -/
structure Schema where
  cols : List (String × TypeTag)
  nodup : (cols.map Prod.fst).Nodup

/-- The canonical ordered column names of a schema. -/
def Schema.keys (s : Schema) : List String := s.cols.map Prod.fst

/-- A row: a mapping from column name to scalar value. -/
abbrev Row := List (String × Scalar)

/-- Modelled from the spec: the per-value type coercion of the Schema
Enforcer (`enforce_schema` in the missing `schemas/column_mappings.py`):
coerce toward the declared tag where safely possible, otherwise keep
the original representation; the missing-value marker stays missing. -/
def coerceValue (t : TypeTag) (v : Scalar) : Scalar :=
  match t, v with
  | _, .null => .null
  | .str, .str s => .str s
  | .str, .num n => .str (toString n)
  | .str, .bool b => .str (toString b)
  | .numeric, .num n => .num n
  | .numeric, .str s =>
    match s.toInt? with
    | some n => .num n
    | none => .str s
  | .numeric, .bool b => .bool b
  | .bool, v => v

/-- Modelled from the spec: enforcement of one row against a schema
(the row-level action of `enforce_schema` from the missing
`schemas/column_mappings.py`): emit exactly the schema's columns in
canonical order, taking the row's value where the column is present
(coerced toward its tag) and the missing-value marker where absent;
columns of the row not declared in the schema are dropped. -/
def enforceRow (schema : Schema) (r : Row) : Row :=
  schema.cols.map (fun ct => (ct.1, coerceValue ct.2 ((List.lookup ct.1 r).getD .null)))

/-- Modelled from the spec: `enforce_schema(df, schema)` from the
missing `schemas/column_mappings.py`, applied to a batch of rows. -/
def enforce_schema (rows : List Row) (schema : Schema) : List Row :=
  rows.map (enforceRow schema)

/-- Modelled from the spec: `WORLD_BANK_SCHEMA` from the missing
`schemas/column_mappings.py`, with the consolidated keys the spec and
the tests require (`id`, `title`, the two disambiguated version keys,
the two notes keys and the sampling-procedure key). -/
def WORLD_BANK_SCHEMA : Schema :=
  ⟨[("id", .numeric),
    ("title", .str),
    ("study.version_statement.version", .str),
    ("doc.version_statement.version", .str),
    ("info.notes", .str),
    ("method.notes", .str),
    ("method.sampling_procedure", .str)], by decide⟩

/-- Modelled from the spec: `UNHCR_SCHEMA` from the missing
`schemas/column_mappings.py`, with the keys the tests assert. -/
def UNHCR_SCHEMA : Schema :=
  ⟨[("id", .numeric), ("title", .str)], by decide⟩

/-- Modelled from the spec: `get_schema_for_source` from the missing
`schemas/column_mappings.py` — the registered sources are exactly
`worldbank` and `unhcr`; any other identifier is an unknown-source
error (`ValueError` in the tests), never a default schema. -/
def get_schema_for_source (source : String) : Except String Schema :=
  if source = "worldbank" then .ok WORLD_BANK_SCHEMA
  else if source = "unhcr" then .ok UNHCR_SCHEMA
  else .error ("Unknown source: " ++ source)

/-- `hasSubstr pat l`: the character sequence `pat` occurs somewhere in
`l` (the Python `pat in s` membership test). -/
def hasSubstr (pat : List Char) (l : List Char) : Bool :=
  (List.range (l.length + 1)).any (fun i => pat.isPrefixOf (l.drop i))

/-- A column name carries a numeric duplicate-suffix marker when it
contains ".1" or ".2" as a substring, which is what the concat test
checks on every column of the combined table. -/
def hasDupSuffixMarker (s : String) : Bool :=
  hasSubstr ".1".data s.data || hasSubstr ".2".data s.data

/-! ## The harvest loop and the per-ID fetch -/

/-- `process_meta`'s result-collection loop: each per-ID fetch either
returns a record or fails; a failure is recorded with its identifier
and the loop continues with the remaining IDs.  The input list is the
order in which the concurrent futures complete (any order may occur,
so every theorem below quantifies over it). -/
def processMeta {α ε ρ : Type} (fetch : α → Except ε ρ) :
    List α → List ρ × List (α × ε)
  | [] => ([], [])
  | i :: rest =>
    match fetch i with
    | .ok r =>
      let p := processMeta fetch rest
      (r :: p.1, p.2)
    | .error e =>
      let p := processMeta fetch rest
      (p.1, (i, e) :: p.2)

/-- `unhcr.fetch_dataset` after a successful HTTP fetch: the decoded
JSON payload (a mapping from field name to value) gets its `id` field
assigned to the passed `id` argument (`data["id"] = id`), overwriting
whatever the payload held there. -/
def fetch_dataset (payload : String → Option Scalar) (id : Scalar) :
    String → Option Scalar :=
  fun k => if k = "id" then some id else payload k

/-! ## Supporting lemmas for the Schema Enforcer -/

/-- Coercion sends the missing-value marker to itself. -/
theorem coerceValue_null (t : TypeTag) : coerceValue t .null = .null := by
  cases t <;> rfl

/-- Coercion toward a fixed tag is idempotent. -/
theorem coerceValue_idem (t : TypeTag) (v : Scalar) :
    coerceValue t (coerceValue t v) = coerceValue t v := by
  cases t <;> cases v <;> try rfl
  case numeric.str s =>
    cases h : s.toInt? <;> simp [coerceValue, h]

/-- Looking a key up in an assoc list built by rewriting each value in
place finds the value computed from that key, provided the keys are
distinct. -/
theorem lookup_map_assoc (cols : List (String × TypeTag))
    (f : String → TypeTag → Scalar) (c : String) (t : TypeTag)
    (hnd : (cols.map Prod.fst).Nodup) (h : (c, t) ∈ cols) :
    List.lookup c (cols.map (fun ct => (ct.1, f ct.1 ct.2))) = some (f c t) := by
  induction cols with
  | nil => cases h
  | cons hd tl ih =>
    rw [List.map_cons, List.nodup_cons] at hnd
    rcases List.mem_cons.mp h with heq | hmem
    · subst heq
      simp [List.lookup]
    · have hne : c ≠ hd.1 := by
        intro hc
        exact hnd.1 (hc ▸ List.mem_map.mpr ⟨(c, t), hmem, rfl⟩)
      simp [List.lookup, beq_false_of_ne hne]
      exact ih hnd.2 hmem

/-- The enforced row lists exactly the schema columns, in order. -/
theorem enforceRow_keys (schema : Schema) (r : Row) :
    (enforceRow schema r).map Prod.fst = schema.keys := by
  simp [enforceRow, Schema.keys]

/-- Looking up a declared column in an enforced row yields the coerced
input value (or the missing marker when the input lacks the column). -/
theorem lookup_enforceRow (schema : Schema) (r : Row) (c : String) (t : TypeTag)
    (h : (c, t) ∈ schema.cols) :
    List.lookup c (enforceRow schema r) =
      some (coerceValue t ((List.lookup c r).getD .null)) :=
  lookup_map_assoc schema.cols
    (fun a tt => coerceValue tt ((List.lookup a r).getD .null)) c t schema.nodup h

/-- Row-level enforcement is idempotent. -/
theorem enforceRow_idem (schema : Schema) (r : Row) :
    enforceRow schema (enforceRow schema r) = enforceRow schema r := by
  unfold enforceRow
  apply List.map_congr_left
  intro ct hct
  have hl := lookup_enforceRow schema r ct.1 ct.2 hct
  rw [enforceRow] at hl
  rw [hl]
  simp [coerceValue_idem]

/-- A concrete schema matching the one in the enforcement test. -/
def testSchema : Schema :=
  ⟨[("id", .numeric), ("title", .str), ("abstract", .str)], by decide⟩

/-- A concrete input row matching the one in the enforcement test. -/
def testRow : Row :=
  [("id", .num 1), ("title", .str "A"), ("extra_column", .str "X")]

/-- A schema whose single column name carries the ".1" marker:
schemas are arbitrary ordered name-to-tag mappings, so this is a
legal input to enforcement. -/
def badSchema : Schema := ⟨[("a.1", .str)], by decide⟩

/-- A concrete DataFrame for exercising `processDatasets`. -/
def witnessDf : List Column := [⟨"a", [Scalar.num 1]⟩]

end MDL

/-! ## Claim theorems for enforcement, registry, harvest loop, fetch -/

/-- C3: enforcement returns rows keyed exactly by the schema keys;
every declared column missing from an input row appears filled with
the missing-value marker, and no column outside the schema survives. -/
theorem c3_enforce_schema_columns (schema : MDL.Schema) (rows : List MDL.Row) :
    (∀ r ∈ MDL.enforce_schema rows schema, r.map Prod.fst = schema.keys) ∧
    (∀ r ∈ rows, ∀ c t, (c, t) ∈ schema.cols → List.lookup c r = none →
      (c, MDL.Scalar.null) ∈ MDL.enforceRow schema r) ∧
    (∀ r ∈ MDL.enforce_schema rows schema, ∀ p ∈ r, p.1 ∈ schema.keys) := by
  refine ⟨?_, ?_, ?_⟩
  · intro r hr
    obtain ⟨r0, _, rfl⟩ := List.mem_map.mp hr
    exact MDL.enforceRow_keys schema r0
  · intro r _ c t hct hlk
    have : (c, MDL.coerceValue t ((List.lookup c r).getD .null)) ∈
        MDL.enforceRow schema r :=
      List.mem_map.mpr ⟨(c, t), hct, rfl⟩
    rwa [hlk, Option.getD_none, MDL.coerceValue_null] at this
  · intro r hr p hp
    obtain ⟨r0, _, rfl⟩ := List.mem_map.mp hr
    obtain ⟨ct, hct, rfl⟩ := List.mem_map.mp hp
    exact List.mem_map.mpr ⟨ct, hct, rfl⟩

/-- Witness for C3: on the test input, the declared column `abstract`
(absent from the row) comes back filled with the missing marker. -/
theorem c3_witness :
    ("abstract", MDL.Scalar.null) ∈ MDL.enforceRow MDL.testSchema MDL.testRow :=
  (c3_enforce_schema_columns MDL.testSchema [MDL.testRow]).2.1 MDL.testRow
    (by simp) "abstract" MDL.TypeTag.str (by decide) (by decide)

/-- C4 counterexample: enforcement accepts a schema whose own column
name contains ".1", so the concatenation of two batches enforced
against it has a column carrying the duplicate-suffix marker — the
claim as stated fails for that schema. -/
theorem c4_counterexample :
    MDL.hasDupSuffixMarker "a.1" = true ∧
    MDL.enforce_schema [[]] MDL.badSchema ++ MDL.enforce_schema [[]] MDL.badSchema =
      [[("a.1", MDL.Scalar.null)], [("a.1", MDL.Scalar.null)]] := by
  constructor
  · decide
  · decide

/-- C4 (amended): when no schema column name itself contains ".1" or
".2" — true of the registered schemas — concatenating two batches
enforced against the same schema yields only schema columns, none with
a duplicate-suffix marker, and as many rows as the two inputs held. -/
theorem c4_concat_no_drift (schema : MDL.Schema) (rowsA rowsB : List MDL.Row)
    (h : ∀ c ∈ schema.keys, MDL.hasDupSuffixMarker c = false) :
    (∀ r ∈ MDL.enforce_schema rowsA schema ++ MDL.enforce_schema rowsB schema,
      r.map Prod.fst = schema.keys) ∧
    (∀ r ∈ MDL.enforce_schema rowsA schema ++ MDL.enforce_schema rowsB schema,
      ∀ p ∈ r, MDL.hasDupSuffixMarker p.1 = false) ∧
    (MDL.enforce_schema rowsA schema ++ MDL.enforce_schema rowsB schema).length =
      rowsA.length + rowsB.length := by
  have hkeys : ∀ r ∈ MDL.enforce_schema rowsA schema ++ MDL.enforce_schema rowsB schema,
      r.map Prod.fst = schema.keys := by
    intro r hr
    rcases List.mem_append.mp hr with hx | hx <;>
      · obtain ⟨r0, _, rfl⟩ := List.mem_map.mp hx
        exact MDL.enforceRow_keys schema r0
  refine ⟨hkeys, ?_, ?_⟩
  · intro r hr p hp
    apply h
    have := hkeys r hr
    rw [← this]
    exact List.mem_map.mpr ⟨p, hp, rfl⟩
  · simp [MDL.enforce_schema]

/-- Witness for C4 (amended): two one-row batches enforced against the
World Bank schema concatenate to two rows. -/
theorem c4_witness :
    (MDL.enforce_schema [[("id", MDL.Scalar.num 1)]] MDL.WORLD_BANK_SCHEMA ++
      MDL.enforce_schema [[("id", MDL.Scalar.num 2)]] MDL.WORLD_BANK_SCHEMA).length =
      [[("id", MDL.Scalar.num 1)]].length + [[("id", MDL.Scalar.num 2)]].length :=
  (c4_concat_no_drift MDL.WORLD_BANK_SCHEMA
    [[("id", MDL.Scalar.num 1)]] [[("id", MDL.Scalar.num 2)]] (by decide)).2.2

/-- C5: enforcement is idempotent — re-enforcing an enforced batch
against the same schema changes nothing. -/
theorem c5_enforce_idempotent (schema : MDL.Schema) (rows : List MDL.Row) :
    MDL.enforce_schema (MDL.enforce_schema rows schema) schema =
      MDL.enforce_schema rows schema := by
  unfold MDL.enforce_schema
  rw [List.map_map]
  apply List.map_congr_left
  intro r _
  exact MDL.enforceRow_idem schema r

/-- C6: the registry serves exactly the registered sources `worldbank`
and `unhcr`; every other identifier is an unknown-source error; the
World Bank schema holds the two disambiguated version keys as distinct
columns. -/
theorem c6_schema_for :
    (∀ src : String, src ≠ "worldbank" → src ≠ "unhcr" →
      MDL.get_schema_for_source src = .error ("Unknown source: " ++ src)) ∧
    (MDL.get_schema_for_source "worldbank" = .ok MDL.WORLD_BANK_SCHEMA ∧
      "study.version_statement.version" ∈ MDL.WORLD_BANK_SCHEMA.keys ∧
      "doc.version_statement.version" ∈ MDL.WORLD_BANK_SCHEMA.keys ∧
      ("study.version_statement.version" : String) ≠
        "doc.version_statement.version") ∧
    MDL.get_schema_for_source "unhcr" = .ok MDL.UNHCR_SCHEMA ∧
    MDL.get_schema_for_source "invalid-source" =
      .error ("Unknown source: " ++ "invalid-source") := by
  refine ⟨?_, ⟨rfl, by decide, by decide, by decide⟩, rfl, rfl⟩
  intro src h1 h2
  simp [MDL.get_schema_for_source, h1, h2]

/-- Witness for C6: the identifier `invalid` is rejected. -/
theorem c6_witness :
    MDL.get_schema_for_source "invalid" = .error ("Unknown source: " ++ "invalid") :=
  c6_schema_for.1 "invalid" (by decide) (by decide)

/-- C7: the harvest loop never aborts on a failing fetch — whatever
order the per-ID fetches complete in, the returned batch is exactly
the successfully fetched records, and every failure is logged paired
with its identifier. -/
theorem c7_process_meta {α ε ρ : Type} (fetch : α → Except ε ρ) (ids : List α) :
    (MDL.processMeta fetch ids).1 =
      ids.filterMap (fun i => (fetch i).toOption) ∧
    (MDL.processMeta fetch ids).2 =
      ids.filterMap (fun i =>
        match fetch i with
        | .ok _ => none
        | .error e => some (i, e)) := by
  induction ids with
  | nil => exact ⟨rfl, rfl⟩
  | cons i rest ih =>
    cases h : fetch i <;>
      simp [MDL.processMeta, h, ih.1, ih.2, Except.toOption]

/-- C8: every column of the table produced by `process_datasets` has a
name other than `schematype` and at least one non-null value. -/
theorem c8_no_allnull_no_schematype (df : List MDL.Column) :
    ∀ c ∈ MDL.processDatasets df,
      c.name ≠ "schematype" ∧ c.values.all MDL.isNullScalar = false := by
  intro c hc
  simp only [MDL.processDatasets, List.mem_filter, bne_iff_ne, ne_eq,
    Bool.not_eq_true'] at hc
  exact ⟨hc.2, hc.1.2⟩

/-- Witness for C8: on a one-column DataFrame the surviving column is
not `schematype` and is not all-null. -/
theorem c8_witness :
    (MDL.Column.mk "a" [MDL.Scalar.num 1]).name ≠ "schematype" ∧
    (MDL.Column.mk "a" [MDL.Scalar.num 1]).values.all MDL.isNullScalar = false :=
  c8_no_allnull_no_schematype MDL.witnessDf ⟨"a", [MDL.Scalar.num 1]⟩ (by decide)

/-- C10: `fetch_dataset` returns the payload with its `id` field set to
the passed identifier, overwriting any `id` the payload carried, and
leaves every other field untouched. -/
theorem c10_fetch_dataset_overwrites_id
    (payload : String → Option MDL.Scalar) (id : MDL.Scalar) :
    MDL.fetch_dataset payload id "id" = some id ∧
    ∀ k, k ≠ "id" → MDL.fetch_dataset payload id k = payload k := by
  constructor
  · simp [MDL.fetch_dataset]
  · intro k hk
    simp [MDL.fetch_dataset, hk]

/-- Witness for C10: on an empty payload, the `id` field holds the
passed identifier and another field stays absent. -/
theorem c10_witness :
    MDL.fetch_dataset (fun _ => none) (MDL.Scalar.num 7) "id" =
      some (MDL.Scalar.num 7) ∧
    MDL.fetch_dataset (fun _ => none) (MDL.Scalar.num 7) "title" = none :=
  ⟨(c10_fetch_dataset_overwrites_id (fun _ => none) (MDL.Scalar.num 7)).1,
    (c10_fetch_dataset_overwrites_id (fun _ => none) (MDL.Scalar.num 7)).2
      "title" (by decide)⟩

/-- C1: on the five-key scenario record, the rewrite of
`process_datasets` strips the section prefixes outright, yielding the
colliding keys `version_statement.version` (twice), `notes` (twice) and
`method_sampling_procedure` — not the five distinct prefixed keys the
specification requires. -/
theorem c1_process_datasets_collides :
    MDL.renameColumns MDL.scenarioCols =
      ["version_statement.version", "version_statement.version",
       "notes", "notes", "method_sampling_procedure"] ∧
    MDL.renameColumns MDL.scenarioCols ≠ MDL.scenarioExpected ∧
    ¬ (MDL.renameColumns MDL.scenarioCols).Nodup := by
  refine ⟨by decide, by decide, by decide⟩

/-- C2: `process_datasets` rewrites the two distinct source keys
`study_info.notes` and `method.notes` to the same output key `notes`
and raises no error: both columns survive with equal labels, silently. -/
theorem c2_collision_not_raised :
    (MDL.processDatasets
        [⟨"study_info.notes", [MDL.Scalar.str "n1"]⟩,
         ⟨"method.notes", [MDL.Scalar.str "n2"]⟩]).map MDL.Column.name =
      ["notes", "notes"] := by
  decide

/-- C9 counterexample: the claim says the trailing wildcard of the
deletion regex matches any single character, so `method` followed by a
newline would be deleted; the rewrite (whose wildcard, like the regex
dot without DOTALL, excludes newline) leaves that name unchanged. -/
theorem c9_counterexample :
    MDL.renameColumn (String.mk ['m', 'e', 't', 'h', 'o', 'd', MDL.newlineChar]) =
      String.mk ['m', 'e', 't', 'h', 'o', 'd', MDL.newlineChar] ∧
    String.mk ['m', 'e', 't', 'h', 'o', 'd', MDL.newlineChar] ≠ "" := by
  constructor
  · decide
  · decide

/-- C9 (amended): the rewrite is an unanchored regex substitution — a
match is deleted at any position, its trailing `.` matches any single
character except a newline, and the literal `data_collection.` →
`method_` replacement runs only after the deletion pass (so its
`method_` output is not re-deleted). -/
theorem c9_rewrite_semantics :
    (∀ c : Char, c ≠ MDL.newlineChar →
      MDL.renameColumn (String.mk ['m', 'e', 't', 'h', 'o', 'd', c]) = "") ∧
    MDL.renameColumn "pre_method_x" = "pre_x" ∧
    MDL.renameColumn "a.study_descZtail" = "a.tail" ∧
    MDL.renameColumn "data_collection.sampling_procedure" =
      "method_sampling_procedure" ∧
    MDL.renameColumn "data_collection.x" = "method_x" := by
  refine ⟨?_, by decide, by decide, by decide, by decide⟩
  intro c hc
  simp [MDL.renameColumn, MDL.deleteAll, MDL.deleteAllFuel,
    MDL.tryDeletePatterns, MDL.dropPatDot, MDL.dropLit,
    MDL.replaceDC, MDL.replaceDCFuel, hc]

/-- Witness for C9 (amended): the underscore after `method` is matched
by the wildcard, so the whole name is deleted. -/
theorem c9_witness :
    MDL.renameColumn (String.mk ['m', 'e', 't', 'h', 'o', 'd', '_']) = "" :=
  c9_rewrite_semantics.1 '_' (by decide)
